import Mathlib

/-
Verification of the RAG pipeline of this repository against its specification.

The development shallowly embeds the three JavaScript sources:
  * `src/netlify/functions/ask-rag.js`        → namespace `AskRag`
  * `src/netlify/functions/drive-webhook.js`  → namespaces `WebhookV1` (first
    exported handler together with `processDocument`) and `WebhookV2` (the second
    exported handler contained in the same file; it is essentially identical to
    the handler of `src/unnamed/part_000`, modelled as `WebhookV3`)
  * `src/unnamed/part_000`                    → namespace `WebhookV3` and the
    shared `Chunker` namespace (`createChunks` is byte-for-byte the same
    function in both files, so it is embedded once)

External collaborators (Google Drive, the Gemini models, the Supabase store,
the langchain text splitter, and the JavaScript `URL` runtime) are modelled as
parameters of an environment record; the handlers are pure functions from an
environment, a request and the current index-store contents to a response, the
new store contents, and the ordered trace of collaborator calls they perform.

All definitions are executable; witnesses and counterexamples evaluate them on
concrete inputs with `decide` or `rfl`.
-/

namespace Js

/-- Embedding vectors; their arithmetic is never inspected by the code under
verification, so the entries are modelled as rationals. -/
abbrev Vec := List Rat

/-- Drop leading whitespace characters, as the two ends of a JavaScript
`String.prototype.trim` do. -/
def trimLeftWs : List Char → List Char
  | [] => []
  | c :: r => if c.isWhitespace then trimLeftWs r else c :: r

/-- JavaScript `s.trim()`: remove whitespace from both ends. -/
def jsTrim (s : String) : String :=
  ⟨(trimLeftWs (trimLeftWs s.data.reverse).reverse)⟩

/-- JavaScript `s.toLowerCase()` restricted to the character-wise lowering that
the sources rely on. -/
def jsToLower (s : String) : String :=
  ⟨s.data.map Char.toLower⟩

/-- JavaScript `hay.includes(sub)` : substring containment. -/
def containsSub (hay sub : String) : Bool :=
  hay.data.tails.any (fun t => sub.data.isPrefixOf t)

/-- JavaScript `s.startsWith(p)`. -/
def startsWith (s p : String) : Bool :=
  p.data.isPrefixOf s.data

/-- JavaScript `array.join(sep)`. -/
def joinWith (sep : String) : List String → String
  | [] => ""
  | [x] => x
  | x :: xs => x ++ sep ++ joinWith sep xs

/-- JavaScript `s.split(sep)` for a single-character separator, on character
lists. The result always has at least one element. -/
def splitOnCharL (sep : Char) : List Char → List (List Char)
  | [] => [[]]
  | c :: rest =>
    if c = sep then [] :: splitOnCharL sep rest
    else
      match splitOnCharL sep rest with
      | [] => [[c]]
      | g :: gs => (c :: g) :: gs

/-- The suffix following the first occurrence of `sep` in `cs`, or `none` when
`sep` does not occur. `none` corresponds to `s.split(sep)` having a single
element, so `s.split(sep)[1]` being `undefined` in JavaScript. -/
def afterSep (sep : List Char) : List Char → Option (List Char)
  | [] => none
  | c :: rest =>
    if sep.isPrefixOf (c :: rest) then some (List.drop (sep.length - 1) rest)
    else afterSep sep rest

/-- The prefix of `cs` up to (excluding) the next occurrence of `sep`; the whole
list when `sep` does not occur. Together with `afterSep` this models
`s.split(sep)[1]`. -/
def upToSep (sep : List Char) : List Char → List Char
  | [] => []
  | c :: rest =>
    if sep.isPrefixOf (c :: rest) then []
    else c :: upToSep sep rest

end Js

namespace Chunker

/-- Worker for the JavaScript regular-expression split `text.split(/\s+/)` used
by `createChunks`: maximal whitespace runs separate tokens, a leading run
contributes a leading empty token and a trailing run a trailing empty token.
`cur` is the (reversed) token being read and `prevWs` records whether the
previous character belonged to a whitespace run. -/
def splitWsAux : List Char → List Char → Bool → List (List Char)
  | [], cur, _ => [cur.reverse]
  | c :: rest, cur, prevWs =>
    if c.isWhitespace then
      if prevWs then splitWsAux rest cur true
      else cur.reverse :: splitWsAux rest [] true
    else splitWsAux rest (c :: cur) false

/-- `text.split(/\s+/)` from `createChunks` (line 172 of `src/unnamed/part_000`,
line 382 of `drive-webhook.js`). -/
def jsSplitWs (s : String) : List String :=
  (splitWsAux s.data [] false).map String.mk

/-- The `for (const word of words)` loop of `createChunks`: greedily pack words
into `currentChunk`, flushing via `chunks.push(currentChunk.join(' '))` when
adding the next word would exceed `chunkSize` and the current chunk is
non-empty. -/
def chunksLoop (chunkSize : Nat) : List String → List String → Nat → List String
  | [], currentChunk, _ =>
    if currentChunk.length > 0 then [Js.joinWith " " currentChunk] else []
  | word :: words, currentChunk, currentLength =>
    if currentLength + word.length + 1 > chunkSize ∧ currentChunk.length > 0 then
      Js.joinWith " " currentChunk :: chunksLoop chunkSize words [word] (word.length + 1)
    else
      chunksLoop chunkSize words (currentChunk ++ [word]) (currentLength + word.length + 1)

/-- `function createChunks(text, chunkSize)` of `src/unnamed/part_000`
lines 167–189 (identically `drive-webhook.js` lines 377–399). -/
def createChunks (text : String) (chunkSize : Nat) : List String :=
  if text.length = 0 then []
  else chunksLoop chunkSize (jsSplitWs text) [] 0

/-- The running `currentLength` of `createChunks`: each word contributes its
length plus one. -/
def sumLen1 : List String → Nat
  | [] => 0
  | w :: ws => w.length + 1 + sumLen1 ws

end Chunker

namespace AskRag

/-- A row returned by the `match_documents` similarity search of `ask-rag.js`. -/
structure MatchDoc where
  file_name : String
  chunk_index : Nat
  content : String
  similarity : Rat
  folder_path : Option String
  tags : List String
deriving DecidableEq

/-- One element of the `sources` array of a successful answer. -/
structure SourceRef where
  file_name : String
  chunk_index : Nat
  similarity : Rat
  folder_path : Option String
  tags : List String
deriving DecidableEq

/-- The JSON body of a response of the `ask-rag` handler: the CORS pre-flight
empty body, an `{error}` body, or an `{answer, sources}` body. -/
inductive Body
  | empty
  | err (error_ : String)
  | ans (answer : String) (sources : List SourceRef)
deriving DecidableEq

/-- A response of the `ask-rag` handler. -/
structure Response where
  statusCode : Nat
  body : Body
deriving DecidableEq

/-- The collaborator calls the `ask-rag` handler can perform, in order of
appearance in the source: the Supabase FAQ lookup, the Gemini embedding call,
the Supabase `match_documents` similarity search, and the Gemini generation
call. -/
inductive Call
  | faqLookup (question : String)
  | embedContent (text : String)
  | matchDocuments (queryEmbedding : Js.Vec) (threshold : Rat) (cap : Nat)
  | generateContent (prompt : String)
deriving DecidableEq

/-- The external collaborators of `ask-rag.js`. `faqs` is the curated FAQ table
(`none` models the Supabase client returning an error, in which case `data` is
`null`); the three remaining fields model the fallible Gemini and Supabase
calls, with `Except.error` standing for a thrown/returned error. -/
structure Env where
  faqs : Option (List (String × String))
  embedContent : String → Except String Js.Vec
  matchDocuments : Js.Vec → Rat → Nat → Except String (List MatchDoc)
  generateContent : String → Except String String

/-- An inbound request: the HTTP method and the `question` field of the parsed
JSON body (`none` when absent). -/
structure Request where
  httpMethod : String
  question : Option String

def missingQuestionMsg : String := "Domanda mancante."

def tooShortMsg : String :=
  "La domanda è troppo corta. Per favore, sii più specifico."

def greetingMsg : String :=
  "Ciao! Sono qui per rispondere alle tue domande sui documenti. Come posso esserti d\x27aiuto?"

def noResultsMsg : String :=
  "Non ho trovato documenti rilevanti per la tua domanda. Prova a riformularla."

def searchErrMsg : String := "Errore nella ricerca dei documenti."

/-- The `ilike('question', %q%)` match of the FAQ lookup: the stored question
contains the cleaned question, case-insensitively. -/
def faqMatches (cleanedQuestion faqQuestion : String) : Bool :=
  Js.containsSub (Js.jsToLower faqQuestion) (Js.jsToLower cleanedQuestion)

/-- The result of the Supabase FAQ query of lines 68–72: `none` when the client
reports an error (`data` is then `null`), otherwise the answers of the matching
rows limited to one. -/
def faqLookupResult (env : Env) (cleanedQuestion : String) : Option (List String) :=
  match env.faqs with
  | none => none
  | some rows =>
      some (((rows.filter (fun r => faqMatches cleanedQuestion r.1)).take 1).map (fun r => r.2))

/-- The per-document context block built at lines 122–127. -/
def docContext (d : MatchDoc) : String :=
  let base := "File: " ++ d.file_name ++ " (Chunk " ++ toString d.chunk_index ++
    ")\nContenuto: " ++ d.content
  let base := match d.folder_path with
    | some p => if p ≠ "" then base ++ "\nCartella: " ++ p else base
    | none => base
  if d.tags ≠ [] then base ++ "\nTags: " ++ Js.joinWith ", " d.tags else base

/-- The grounding prompt of lines 130–137. -/
def promptFor (context cleanedQuestion : String) : String :=
  "\nSei un assistente esperto in musica e discografia, hai capacita\x27di management ed esperienza in editoria digitale marketing social.Audio video luci effetti, management artistico, comprendi lo stadio del progetto e ne sei co-responsabile con Admin. Se l utente si identifica con admin, collabora con lui all evoluzione del progetto rispondendo a qualsiasi tipo di domanda anche fuori dall ambito del progetto. Per tutti gli altri utenti rispondi  Basandoti **SOLO ed esclusivamente** sui seguenti documenti forniti, rispondi alla domanda dell\x27utente in modo accurato, dettagliato e professionale.\nDOCUMENTI RILEVANTI:\n" ++
    context ++ "\n\nDOMANDA DELL\x27UTENTE: " ++ cleanedQuestion ++ "\n\nRISPOSTA:"

def toSource (d : MatchDoc) : SourceRef :=
  ⟨d.file_name, d.chunk_index, d.similarity, d.folder_path, d.tags⟩

/-- The retrieval-and-generation tail of the handler (lines 92–157), entered
when no FAQ matched. -/
def ragTail (env : Env) (cleanedQuestion : String) : Response × List Call :=
  match env.embedContent cleanedQuestion with
  | .error e =>
      (⟨500, Body.err ("Errore del server: " ++ e)⟩,
       [Call.faqLookup cleanedQuestion, Call.embedContent cleanedQuestion])
  | .ok questionEmbedding =>
      match env.matchDocuments questionEmbedding (0.75 : Rat) 5 with
      | .error _ =>
          (⟨500, Body.err searchErrMsg⟩,
           [Call.faqLookup cleanedQuestion, Call.embedContent cleanedQuestion,
            Call.matchDocuments questionEmbedding (0.75 : Rat) 5])
      | .ok data =>
          if data.isEmpty then
            (⟨200, Body.ans noResultsMsg []⟩,
             [Call.faqLookup cleanedQuestion, Call.embedContent cleanedQuestion,
              Call.matchDocuments questionEmbedding (0.75 : Rat) 5])
          else
            match env.generateContent
                (promptFor (Js.joinWith "\n\n" (data.map docContext)) cleanedQuestion) with
            | .error e =>
                (⟨500, Body.err ("Errore del server: " ++ e)⟩,
                 [Call.faqLookup cleanedQuestion, Call.embedContent cleanedQuestion,
                  Call.matchDocuments questionEmbedding (0.75 : Rat) 5,
                  Call.generateContent
                    (promptFor (Js.joinWith "\n\n" (data.map docContext)) cleanedQuestion)])
            | .ok answer =>
                (⟨200, Body.ans answer (data.map toSource)⟩,
                 [Call.faqLookup cleanedQuestion, Call.embedContent cleanedQuestion,
                  Call.matchDocuments questionEmbedding (0.75 : Rat) 5,
                  Call.generateContent
                    (promptFor (Js.joinWith "\n\n" (data.map docContext)) cleanedQuestion)])

/-- `exports.handler` of `src/netlify/functions/ask-rag.js`. Returns the
response, paired with the ordered trace of collaborator calls performed. -/
def handler (env : Env) (req : Request) : Response × List Call :=
  if req.httpMethod = "OPTIONS" then (⟨200, Body.empty⟩, [])
  else
    match req.question with
    | none => (⟨400, Body.err missingQuestionMsg⟩, [])
    | some question =>
      if question = "" then (⟨400, Body.err missingQuestionMsg⟩, [])
      else
        if (Js.jsTrim question).length < 5 then
          (⟨400, Body.ans tooShortMsg []⟩, [])
        else if Js.containsSub (Js.jsToLower (Js.jsTrim question)) "ciao" ||
            Js.containsSub (Js.jsToLower (Js.jsTrim question)) "salve" then
          (⟨200, Body.ans greetingMsg []⟩, [])
        else
          match faqLookupResult env (Js.jsTrim question) with
          | some (a :: _) =>
              (⟨200, Body.ans ("(FAQ) " ++ a) []⟩, [Call.faqLookup (Js.jsTrim question)])
          | _ => ragTail env (Js.jsTrim question)

end AskRag

/-- An inbound webhook event: the (case-sensitive) header map of the Netlify
event object. -/
structure WEvent where
  headers : String → Option String

/-- The JSON body of a webhook response: a `{message}` or an `{error}` body. -/
inductive WBody
  | msg (s : String)
  | err (s : String)
deriving DecidableEq

/-- A response of a webhook handler. -/
structure WResp where
  statusCode : Nat
  body : WBody
deriving DecidableEq

namespace WebhookV1

/-- A row of the `documents` table as written by the first handler of
`drive-webhook.js` (lines 60–68): the chunk index lives inside the synthesized
`id` column. -/
structure Row where
  id : String
  file_id : String
  content : String
  embedding : Js.Vec
  file_name : String
deriving DecidableEq

/-- The index store: the rows of the `documents` table. -/
abbrev Store := List Row

/-- The collaborator calls of the first webhook variant. -/
inductive Call
  | embedContent (text : String)
  | deleteByFileId (fid : String)
  | upsertRows (rows : List Row)
  | getMetadata (fid : String)
  | exportFile (fid : String)
  | downloadFile (fid : String)
deriving DecidableEq

/-- The external collaborators of the first webhook variant. `splitText` is the
langchain `RecursiveCharacterTextSplitter` (chunkSize 1000, chunkOverlap 200),
an external library treated as a collaborator; `deleteRes` and `upsertRes` are
the error fields returned by the Supabase delete and batched upsert. -/
structure Env where
  splitText : String → List String
  embed : String → Except String Js.Vec
  deleteRes : Option String
  upsertRes : Option String
  getMeta : String → Except String (String × String)
  exportText : String → Except String String
  downloadText : String → Except String String

/-- The synthesized chunk id of line 61: `${fileId}-${index}`. -/
def mkId (fileId : String) (index : Nat) : String :=
  fileId ++ "-" ++ toString index

/-- Supabase `upsert` of one row with `onConflict: 'id'`: replace the rows
sharing the id, otherwise append. -/
def upsertRow (store : Store) (r : Row) : Store :=
  if store.any (fun s => s.id = r.id) then
    store.map (fun s => if s.id = r.id then r else s)
  else store ++ [r]

/-- Supabase batched `upsert` of a row list (line 88–90). -/
def upsertRows (store : Store) (rows : List Row) : Store :=
  rows.foldl upsertRow store

/-- The embedding loop of `processDocument` (lines 37–69): one Gemini embedding
call per chunk, building the rows to upsert; the first failure throws and
aborts the loop. Returns the result together with the embedding calls
performed. -/
def embedChunks (env : Env) (fileId fileName : String) :
    List String → Nat → Except String (List Row) × List Call
  | [], _ => (.ok [], [])
  | chunk :: rest, index =>
    match env.embed chunk with
    | .error e => (.error e, [Call.embedContent chunk])
    | .ok v =>
      match embedChunks env fileId fileName rest (index + 1) with
      | (res, calls) =>
        (match res with
         | .error e => .error e
         | .ok rows => .ok (⟨mkId fileId index, fileId, chunk, v, fileName⟩ :: rows),
         Call.embedContent chunk :: calls)

/-- `processDocument` of `drive-webhook.js` lines 21–102: split, embed each
chunk, delete the old chunks of the file, then upsert the new rows. Returns the
outcome, the store afterwards, and the trace of collaborator calls. -/
def processDocument (env : Env) (fileId content fileName : String) (store : Store) :
    Except String Unit × Store × List Call :=
  match embedChunks env fileId fileName (env.splitText content) 0 with
  | (.error e, calls) => (.error e, store, calls)
  | (.ok rows, calls) =>
    match env.deleteRes with
    | some e => (.error e, store, calls ++ [Call.deleteByFileId fileId])
    | none =>
      match env.upsertRes with
      | some e =>
          (.error e, store.filter (fun r => ¬ r.file_id = fileId),
           calls ++ [Call.deleteByFileId fileId, Call.upsertRows rows])
      | none =>
          (.ok (), upsertRows (store.filter (fun r => ¬ r.file_id = fileId)) rows,
           calls ++ [Call.deleteByFileId fileId, Call.upsertRows rows])

/-- Line 119: `event.headers['x-goog-resource-uri'].split('files/')[1].split('?')[0]`.
`none` models the thrown `TypeError`: either the header is absent (property
access on `undefined`) or `'files/'` does not occur, so that `split[1]` is
`undefined` and its `.split` throws. -/
def extractFileId (uriHeader : Option String) : Option String :=
  match uriHeader with
  | none => none
  | some uri =>
    match Js.afterSep "files/".data uri.data with
    | none => none
    | some suffix =>
        some ⟨(Js.upToSep "files/".data suffix).takeWhile (fun c => ¬ c = '?')⟩

def removedMsg : String := "File deleted or trashed, removed from index."

def indexedMsg : String := "Webhook processed successfully and document indexed."

/-- The first `exports.handler` of `drive-webhook.js` (lines 106–221). Returns
the response, the store afterwards, and the ordered trace of collaborator
calls. -/
def handler (env : Env) (event : WEvent) (store : Store) :
    WResp × Store × List Call :=
  match extractFileId (event.headers "x-goog-resource-uri") with
  | none => (⟨500, WBody.err "Cannot read properties of undefined"⟩, store, [])
  | some fileId =>
    let resourceState := event.headers "x-goog-resource-state"
    if resourceState = some "not_found" ∨ resourceState = some "trash" then
      match env.deleteRes with
      | some e => (⟨500, WBody.err e⟩, store, [Call.deleteByFileId fileId])
      | none =>
          (⟨200, WBody.msg removedMsg⟩,
           store.filter (fun r => ¬ r.file_id = fileId), [Call.deleteByFileId fileId])
    else
      match env.getMeta fileId with
      | .error e => (⟨500, WBody.err e⟩, store, [Call.getMetadata fileId])
      | .ok (mimeType, fileName) =>
        if Js.startsWith mimeType "application/vnd.google-apps." then
          match env.exportText fileId with
          | .error e =>
              (⟨500, WBody.err e⟩, store, [Call.getMetadata fileId, Call.exportFile fileId])
          | .ok fileContent =>
            match processDocument env fileId fileContent fileName store with
            | (.error e, store2, calls) =>
                (⟨500, WBody.err e⟩, store2,
                 [Call.getMetadata fileId, Call.exportFile fileId] ++ calls)
            | (.ok _, store2, calls) =>
                (⟨200, WBody.msg indexedMsg⟩, store2,
                 [Call.getMetadata fileId, Call.exportFile fileId] ++ calls)
        else if Js.startsWith mimeType "text/" then
          match env.downloadText fileId with
          | .error e =>
              (⟨500, WBody.err e⟩, store, [Call.getMetadata fileId, Call.downloadFile fileId])
          | .ok fileContent =>
            match processDocument env fileId fileContent fileName store with
            | (.error e, store2, calls) =>
                (⟨500, WBody.err e⟩, store2,
                 [Call.getMetadata fileId, Call.downloadFile fileId] ++ calls)
            | (.ok _, store2, calls) =>
                (⟨200, WBody.msg indexedMsg⟩, store2,
                 [Call.getMetadata fileId, Call.downloadFile fileId] ++ calls)
        else
          (⟨200, WBody.msg ("Unsupported file type: " ++ mimeType ++
              ". Only Google Docs Editor files (Documents, Sheets, Slides) and plain text files are supported.")⟩,
           store, [Call.getMetadata fileId])

end WebhookV1

namespace WebhookV3

/-- The Drive metadata requested at lines 63–66 of `src/unnamed/part_000`:
`fields: 'id,name,mimeType,modifiedTime,parents'`. -/
structure Meta where
  id : String
  name : String
  mimeType : String
  modifiedTime : String
  parents : List String

/-- A row of the `documents` table as upserted at lines 132–143. -/
structure Row where
  file_id : String
  file_name : String
  chunk_index : Nat
  content : String
  embedding : Js.Vec
  modified_time : String
  folder_path : Option String
  tags : List String
deriving DecidableEq

/-- The index store: the rows of the `documents` table. -/
abbrev Store := List Row

/-- The collaborator calls of the `part_000` webhook variant. -/
inductive Call
  | getMetadata (fid : String)
  | getParentName (pid : String)
  | downloadFile (fid : String)
  | exportFile (fid : String)
  | embedContent (text : String)
  | upsertRow (r : Row)
deriving DecidableEq

/-- The external collaborators of the `part_000` webhook variant. `urlPathname`
models the JavaScript `new URL(...)` runtime: `none` when the constructor
throws on an invalid URL, otherwise the pathname. `upsertRes` is the `error`
field returned by the per-row Supabase upsert. -/
structure Env where
  urlPathname : String → Option String
  getMeta : String → Except String Meta
  getParentName : String → Except String String
  downloadFile : String → Except String String
  exportFile : String → Except String String
  embedContent : String → Except String Js.Vec
  upsertRes : Row → Option String

/-- Modelled from the spec: the repository's table definition for the index
store is not under `src/`, so the conflict key of the bare `.upsert({...})` at
lines 132–143 is taken from the spec's index-store interface, "bulk/row upsert
keyed by `(documentId, chunkIndex)` or an equivalent composite key": a row
replaces the rows sharing its `(file_id, chunk_index)` pair, otherwise it is
appended. -/
def upsertRow (store : Store) (r : Row) : Store :=
  if store.any (fun s => s.file_id = r.file_id ∧ s.chunk_index = r.chunk_index) then
    store.map (fun s =>
      if s.file_id = r.file_id ∧ s.chunk_index = r.chunk_index then r else s)
  else store ++ [r]

/-- The per-chunk loop of lines 117–150: skip blank chunks, embed, then upsert;
an upsert error is only logged (the store is unchanged for that row and the
loop continues), while an embedding failure throws, aborting the loop. Returns
the outcome, the store afterwards, and the calls performed. -/
def processChunks (env : Env) (fileId : String) (meta : Meta)
    (folderPath : Option String) (tags : List String) :
    List String → Nat → Store → Except String Unit × Store × List Call
  | [], _, store => (.ok (), store, [])
  | chunk :: rest, i, store =>
    if Js.jsTrim chunk = "" then
      processChunks env fileId meta folderPath tags rest (i + 1) store
    else
      match env.embedContent chunk with
      | .error e => (.error e, store, [Call.embedContent chunk])
      | .ok v =>
        match processChunks env fileId meta folderPath tags rest (i + 1)
            (match env.upsertRes ⟨fileId, meta.name, i, chunk, v, meta.modifiedTime, folderPath, tags⟩ with
             | some _ => store
             | none => upsertRow store ⟨fileId, meta.name, i, chunk, v, meta.modifiedTime, folderPath, tags⟩) with
        | (res, store3, calls) =>
          (res, store3,
           Call.embedContent chunk ::
             Call.upsertRow ⟨fileId, meta.name, i, chunk, v, meta.modifiedTime, folderPath, tags⟩ :: calls)

/-- The file-id extraction of lines 31–52: prefer the `X-Goog-Resource-Uri`
header, from which the id is the last segment of the URL pathname (`new URL`
throwing on a malformed URI is the `Except.error` case), and fall back to the
`X-Goog-Resource-Id` header. The inner `Option` is the possibly-missing id. -/
def extractFileId (env : Env) (headers : String → Option String) :
    Except String (Option String) :=
  match (headers "X-Goog-Resource-Uri").or (headers "x-goog-resource-uri") with
  | some uri =>
    match env.urlPathname uri with
    | none => .error "Invalid URL"
    | some p => .ok (some ⟨(Js.splitOnCharL '/' p.data).getLastD []⟩)
  | none => .ok ((headers "X-Goog-Resource-Id").or (headers "x-goog-resource-id"))

/-- The mime-type dispatch of lines 96–111, given the already-downloaded media
response: `text/plain` uses the download, `application/pdf` and unknown types
yield empty text, and a Google document is exported (a fallible call). -/
def resolveText (env : Env) (fileId mimeType downloaded : String) :
    Except String String × List Call :=
  if Js.containsSub mimeType "text/plain" then (.ok downloaded, [])
  else if Js.containsSub mimeType "application/pdf" then (.ok "", [])
  else if Js.containsSub mimeType "application/vnd.google-apps.document" then
    match env.exportFile fileId with
    | .error e => (.error e, [Call.exportFile fileId])
    | .ok t => (.ok t, [Call.exportFile fileId])
  else (.ok "", [])

def missingIdMsg : String := "Missing resource ID in webhook headers."

def successMsg : String := "File processato con successo (o saltato se non supportato)."

def serverErr (e : String) : String := "Errore del server: " ++ e

/-- `exports.handler` of `src/unnamed/part_000` (lines 5–164). The
`X-Goog-Resource-State` header is read and logged but never drives control
flow: in particular there is no removal/trash branch. Returns the response, the
store afterwards, and the ordered trace of collaborator calls. -/
def handler (env : Env) (event : WEvent) (store : Store) :
    WResp × Store × List Call :=
  match extractFileId env event.headers with
  | .error e => (⟨500, WBody.err (serverErr e)⟩, store, [])
  | .ok none => (⟨400, WBody.err missingIdMsg⟩, store, [])
  | .ok (some fileId) =>
    if fileId = "" then (⟨400, WBody.err missingIdMsg⟩, store, [])
    else
      match env.getMeta fileId with
      | .error e => (⟨500, WBody.err (serverErr e)⟩, store, [Call.getMetadata fileId])
      | .ok meta =>
        let folderStep : Option String × List Call :=
          match meta.parents with
          | [] => (none, [])
          | pid :: _ =>
            match env.getParentName pid with
            | .error _ => (none, [Call.getParentName pid])
            | .ok pname => (some ("/" ++ pname), [Call.getParentName pid])
        let tags : List String := []
        match env.downloadFile fileId with
        | .error e =>
            (⟨500, WBody.err (serverErr e)⟩, store,
             Call.getMetadata fileId :: folderStep.2 ++ [Call.downloadFile fileId])
        | .ok downloaded =>
          match resolveText env fileId meta.mimeType downloaded with
          | (.error e, tcalls) =>
              (⟨500, WBody.err (serverErr e)⟩, store,
               Call.getMetadata fileId :: folderStep.2 ++ [Call.downloadFile fileId] ++ tcalls)
          | (.ok textContent, tcalls) =>
            let chunks := Chunker.createChunks textContent 1000
            match processChunks env fileId meta folderStep.1 tags chunks 0 store with
            | (.error e, store2, calls) =>
                (⟨500, WBody.err (serverErr e)⟩, store2,
                 Call.getMetadata fileId :: folderStep.2 ++ [Call.downloadFile fileId] ++
                   tcalls ++ calls)
            | (.ok _, store2, calls) =>
                (⟨200, WBody.msg successMsg⟩, store2,
                 Call.getMetadata fileId :: folderStep.2 ++ [Call.downloadFile fileId] ++
                   tcalls ++ calls)

end WebhookV3

namespace WebhookV3

/-- A first version of a document's content: ~1100 characters, two words, which
`createChunks` with the handlers' budget 1000 splits into two chunks. -/
def bigText1 : String := String.mk (List.replicate 700 'a' ++ ' ' :: List.replicate 400 'b')

/-- A second, shorter version of the same document: a single chunk. -/
def bigText2 : String := String.mk (List.replicate 3 'c')

/-- Environment for the first ingestion of document `D` (plain text, content
`bigText1`); embeddings and upserts succeed. -/
def shrinkEnv1 : Env :=
  ⟨fun _ => none, fun _ => .ok ⟨"D", "doc", "text/plain", "t1", []⟩, fun _ => .error "e",
   fun _ => .ok bigText1, fun _ => .error "e", fun _ => .ok [(1 : Rat)], fun _ => none⟩

/-- Environment for the second ingestion of document `D`: the content shrank to
`bigText2`. -/
def shrinkEnv2 : Env :=
  ⟨fun _ => none, fun _ => .ok ⟨"D", "doc", "text/plain", "t2", []⟩, fun _ => .error "e",
   fun _ => .ok bigText2, fun _ => .error "e", fun _ => .ok [(1 : Rat)], fun _ => none⟩

/-- A change notification identifying document `D` through the header
`x-goog-resource-id`. -/
def idEventD : WEvent := ⟨fun k => if k = "x-goog-resource-id" then some "D" else none⟩

end WebhookV3

namespace Chunker

theorem sumLen1_append (l : List String) (w : String) :
    sumLen1 (l ++ [w]) = sumLen1 l + (w.length + 1) := by
  induction l with
  | nil => simp [sumLen1]
  | cons x xs ih =>
    show sumLen1 (x :: (xs ++ [w])) = sumLen1 (x :: xs) + (w.length + 1)
    simp only [sumLen1]
    rw [ih]
    omega

theorem sumLen1_pos (l : List String) (h : l ≠ []) : 1 ≤ sumLen1 l := by
  cases l with
  | nil => exact absurd rfl h
  | cons x xs => simp only [sumLen1]; omega

theorem joinWith_sp_length (l : List String) (h : l ≠ []) :
    (Js.joinWith " " l).length + 1 = sumLen1 l := by
  induction l with
  | nil => exact absurd rfl h
  | cons w ws ih =>
    cases ws with
    | nil => simp [Js.joinWith, sumLen1]
    | cons x xs =>
      have h2 := ih (by simp)
      have hsp : (" " : String).length = 1 := rfl
      show (w ++ " " ++ Js.joinWith " " (x :: xs)).length + 1 = sumLen1 (w :: x :: xs)
      rw [String.length_append, String.length_append, hsp]
      simp only [sumLen1] at h2 ⊢
      omega

theorem flush_ok (size : Nat) (allW : List String) (cur : List String)
    (hcur : ∀ w ∈ cur, w ∈ allW) (hne : cur ≠ [])
    (hq : sumLen1 cur ≤ size + 1 ∨ ∃ w, cur = [w]) :
    (Js.joinWith " " cur).length ≤ size ∨
      ∃ w ∈ allW, Js.joinWith " " cur = w ∧ size < (Js.joinWith " " cur).length := by
  rcases hq with hle | ⟨w, rfl⟩
  · left
    have := joinWith_sp_length cur hne
    omega
  · have hjw : Js.joinWith " " [w] = w := rfl
    rcases le_or_lt w.length size with hle | hlt
    · left; rw [hjw]; exact hle
    · right; exact ⟨w, hcur w (by simp), hjw, by rw [hjw]; exact hlt⟩

theorem chunksLoop_bound (size : Nat) (allW : List String) :
    ∀ ws cur, (∀ w ∈ ws, w ∈ allW) → (∀ w ∈ cur, w ∈ allW) →
      (cur = [] ∨ sumLen1 cur ≤ size + 1 ∨ ∃ w, cur = [w]) →
      ∀ c ∈ chunksLoop size ws cur (sumLen1 cur),
        c.length ≤ size ∨ ∃ w ∈ allW, c = w ∧ size < c.length := by
  intro ws
  induction ws with
  | nil =>
    intro cur hws hcur hq c hc
    simp only [chunksLoop] at hc
    by_cases hne : cur = []
    · subst hne; simp at hc
    · rw [if_pos (List.length_pos.mpr hne)] at hc
      simp only [List.mem_singleton] at hc
      subst hc
      exact flush_ok size allW cur hcur hne (hq.resolve_left hne)
  | cons w ws ih =>
    intro cur hws hcur hq c hc
    simp only [chunksLoop] at hc
    by_cases hg : sumLen1 cur + w.length + 1 > size ∧ cur.length > 0
    · rw [if_pos hg] at hc
      have hne : cur ≠ [] := by
        intro h; subst h; simp at hg
      rcases List.mem_cons.mp hc with rfl | hc2
      · exact flush_ok size allW cur hcur hne (hq.resolve_left hne)
      · have hw : w ∈ allW := hws w (by simp)
        have hcast : w.length + 1 = sumLen1 [w] := by simp [sumLen1]
        rw [hcast] at hc2
        refine ih [w] (fun x hx => hws x (by simp [hx])) ?_ (Or.inr (Or.inr ⟨w, rfl⟩)) c hc2
        intro x hx
        simp only [List.mem_singleton] at hx
        subst hx; exact hw
    · rw [if_neg hg] at hc
      have hcast : sumLen1 cur + w.length + 1 = sumLen1 (cur ++ [w]) :=
        (sumLen1_append cur w).symm
      rw [hcast] at hc
      refine ih (cur ++ [w]) (fun x hx => hws x (by simp [hx])) ?_ ?_ c hc
      · intro x hx
        rcases List.mem_append.mp hx with h | h
        · exact hcur x h
        · simp only [List.mem_singleton] at h
          subst h; exact hws x (by simp)
      · by_cases hne : cur = []
        · subst hne
          exact Or.inr (Or.inr ⟨w, rfl⟩)
        · have hpos : cur.length > 0 := List.length_pos.mpr hne
          have hle : ¬ sumLen1 cur + w.length + 1 > size := fun hgt => hg ⟨hgt, hpos⟩
          rw [sumLen1_append]
          omega

theorem chunksLoop_singleton_big (size : Nat) (w : String) (hw : size < w.length) :
    ∀ ws, w ∈ chunksLoop size ws [w] (w.length + 1) := by
  intro ws
  cases ws with
  | nil =>
    simp only [chunksLoop]
    rw [if_pos (by simp)]
    simp [Js.joinWith]
  | cons x xs =>
    simp only [chunksLoop]
    rw [if_pos ⟨by omega, by simp⟩]
    exact List.mem_cons_self _ _

theorem chunksLoop_oversized (size : Nat) :
    ∀ ws cur (w : String), w ∈ ws → size < w.length →
      w ∈ chunksLoop size ws cur (sumLen1 cur) := by
  intro ws
  induction ws with
  | nil => intro cur w h _; simp at h
  | cons x xs ih =>
    intro cur w hmem hw
    simp only [chunksLoop]
    rcases List.mem_cons.mp hmem with rfl | hmem2
    · by_cases hne : cur = []
      · subst hne
        rw [if_neg (by simp)]
        have h2 : sumLen1 ([] : List String) + w.length + 1 = w.length + 1 := by
          simp [sumLen1]
        rw [List.nil_append, h2]
        exact chunksLoop_singleton_big size w hw xs
      · have hpos : cur.length > 0 := List.length_pos.mpr hne
        have h1 := sumLen1_pos cur hne
        rw [if_pos ⟨by omega, hpos⟩]
        apply List.mem_cons_of_mem
        have h2 : w.length + 1 = sumLen1 [w] := by simp [sumLen1]
        exact chunksLoop_singleton_big size w hw xs
    · by_cases hg : sumLen1 cur + x.length + 1 > size ∧ cur.length > 0
      · rw [if_pos hg]
        apply List.mem_cons_of_mem
        have h2 : x.length + 1 = sumLen1 [x] := by simp [sumLen1]
        rw [h2]
        exact ih [x] w hmem2 hw
      · rw [if_neg hg]
        have h2 : sumLen1 cur + x.length + 1 = sumLen1 (cur ++ [x]) :=
          (sumLen1_append cur x).symm
        rw [h2]
        exact ih (cur ++ [x]) w hmem2 hw

/-- C7: every chunk produced by `createChunks` has length at most the budget,
except a chunk that is a single word of the input whose own length exceeds the
budget; such an oversized word is always placed alone as its own chunk (so it
is never dropped). Termination is witnessed by `createChunks` being a total
structurally recursive function. -/
theorem createChunks_size_bound (text : String) (chunkSize : Nat) :
    (∀ c ∈ createChunks text chunkSize,
        c.length ≤ chunkSize ∨ ∃ w ∈ jsSplitWs text, c = w ∧ chunkSize < c.length) ∧
    (∀ w ∈ jsSplitWs text, chunkSize < w.length → w ∈ createChunks text chunkSize) := by
  by_cases h : text.length = 0
  · constructor
    · intro c hc
      simp only [createChunks, if_pos h] at hc
      simp at hc
    · intro w hw hlen
      obtain ⟨l⟩ := text
      rw [String.length_mk, List.length_eq_zero] at h
      subst h
      simp only [jsSplitWs, splitWsAux, List.reverse_nil, List.map] at hw
      simp only [List.mem_singleton] at hw
      subst hw
      exact absurd hlen (by simp)
  · constructor
    · intro c hc
      simp only [createChunks, if_neg h] at hc
      exact chunksLoop_bound chunkSize (jsSplitWs text) (jsSplitWs text) []
        (fun w hw => hw) (by simp) (Or.inl rfl) c hc
    · intro w hw hlen
      simp only [createChunks, if_neg h]
      exact chunksLoop_oversized chunkSize (jsSplitWs text) [] w hw hlen

/-- Witness for `createChunks_size_bound`: in `createChunks "aaaa b" 3` the
chunk `"aaaa"` is an oversized single word of the input. -/
theorem createChunks_size_bound_witness :
    ("aaaa" : String).length ≤ 3 ∨
      ∃ w ∈ jsSplitWs "aaaa b", ("aaaa" : String) = w ∧ 3 < ("aaaa" : String).length :=
  (createChunks_size_bound "aaaa b" 3).1 "aaaa" (by decide)

end Chunker

namespace Chunker

theorem splitWsAux_allWs_true (cs : List Char) (h : ∀ c ∈ cs, c.isWhitespace) :
    splitWsAux cs [] true = [[]] := by
  induction cs with
  | nil => rfl
  | cons c rest ih =>
    simp only [splitWsAux, if_pos (h c (by simp)), if_pos trivial]
    exact ih (fun x hx => h x (by simp [hx]))

theorem jsSplitWs_blank (s : String) (hne : s ≠ "") (hws : s.data.all Char.isWhitespace) :
    jsSplitWs s = ["", ""] := by
  obtain ⟨l⟩ := s
  cases l with
  | nil => exact absurd rfl hne
  | cons c rest =>
    simp only [List.all_eq_true] at hws
    have hc : c.isWhitespace := by
      have := hws c (by simp)
      simpa using this
    show ((splitWsAux (c :: rest) [] false).map String.mk) = ["", ""]
    simp only [splitWsAux, if_pos hc]
    rw [if_neg (by simp)]
    rw [splitWsAux_allWs_true rest (fun x hx => by simpa using hws x (by simp [hx]))]
    rfl

/-- C8 (amended): the chunker returns zero chunks for the empty input, but a
non-empty whitespace-only input yields exactly one chunk, the single-space
string `" "` (for any budget of at least 2, in particular the handlers'
hard-coded budget 1000): `text.split(/\s+/)` maps whitespace-only text to two
empty tokens, which are packed into one chunk and joined with a space. -/
theorem createChunks_blank (chunkSize : Nat) (s : String) (hsize : 2 ≤ chunkSize)
    (hne : s ≠ "") (hws : s.data.all Char.isWhitespace) :
    createChunks "" chunkSize = [] ∧ createChunks s chunkSize = [" "] := by
  constructor
  · rfl
  · have hsplit := jsSplitWs_blank s hne hws
    have hlen : ¬ s.length = 0 := by
      obtain ⟨l⟩ := s
      cases l with
      | nil => exact absurd rfl hne
      | cons c rest => simp [String.length_mk]
    simp only [createChunks, if_neg hlen, hsplit]
    simp only [chunksLoop]
    rw [if_neg (by simp)]
    rw [if_neg (fun hcon => by
      have h2 : 2 > chunkSize := hcon.1
      omega)]
    rw [if_pos (by simp)]
    rfl

/-- Witness for `createChunks_blank` at the handler budget 1000 and the
one-space input. -/
theorem createChunks_blank_witness :
    createChunks "" 1000 = [] ∧ createChunks " " 1000 = [" "] :=
  createChunks_blank 1000 " " (by decide) (by decide) (by decide)

/-- Counterexample to C8 as stated: the whitespace-only input `" "` does not
produce zero chunks; it produces the single blank chunk `" "`. -/
theorem createChunks_blank_counterexample :
    createChunks " " 4 = [" "] ∧ createChunks " " 4 ≠ [] := by
  constructor
  · decide
  · decide

end Chunker

namespace AskRag

theorem handler_trace_head (env : Env) (req : Request) :
    (handler env req).2 = [] ∨
      ∃ q rest, (handler env req).2 = Call.faqLookup q :: rest := by
  unfold handler ragTail
  repeat' first
    | (left; rfl)
    | (right; exact ⟨_, _, rfl⟩)
    | split

theorem ragTail_trace_embed (env : Env) (c : String) :
    Call.embedContent c ∈ (ragTail env c).2 := by
  unfold ragTail
  repeat' first
    | (exact List.mem_cons_of_mem _ (List.mem_cons_self _ _))
    | split

/-- C6: for a non-pre-flight request whose question is missing (or the empty
string, which the code treats as missing) or whose trimmed question is shorter
than the minimum meaningful length 5, the handler returns a 400 client error
and performs no collaborator call at all: no FAQ lookup, no embedding, no
similarity search, no generation. -/
theorem invalid_question_no_calls (env : Env) (req : Request)
    (hm : req.httpMethod ≠ "OPTIONS")
    (hq : req.question = none ∨
      ∃ q, req.question = some q ∧ (Js.jsTrim q).length < 5) :
    (handler env req).1.statusCode = 400 ∧ (handler env req).2 = [] := by
  rcases hq with hq | ⟨q, hq, hlen⟩
  · simp [handler, hm, hq]
  · by_cases hq0 : q = ""
    · subst hq0; simp [handler, hm, hq]
    · simp [handler, hm, hq, hq0, hlen]

/-- Witness for `invalid_question_no_calls`: a POST request with no question. -/
theorem invalid_question_no_calls_witness :
    (handler ⟨some [], fun _ => .error "e", fun _ _ _ => .error "e", fun _ => .error "e"⟩
        ⟨"POST", none⟩).1.statusCode = 400 ∧
      (handler ⟨some [], fun _ => .error "e", fun _ _ _ => .error "e", fun _ => .error "e"⟩
        ⟨"POST", none⟩).2 = [] :=
  invalid_question_no_calls _ _ (by decide) (Or.inl rfl)

/-- C9: evaluated at the exact query `"ciao"`, the handler returns the 400
too-short client response, not the fixed greeting: the minimum-length filter
(trimmed length < 5) runs before the greeting branch, so the greeting branch —
which explicitly targets questions containing "ciao" — can never fire for the
bare four-character greeting itself. No collaborator is called either way. -/
theorem ciao_returns_too_short :
    handler ⟨some [], fun _ => .error "e", fun _ _ _ => .error "e", fun _ => .error "e"⟩
        ⟨"POST", some "ciao"⟩ =
      (⟨400, Body.ans tooShortMsg []⟩, []) ∧
    Body.ans tooShortMsg [] ≠ Body.ans greetingMsg [] := by
  constructor
  · decide
  · decide


/-- C2 (amended): for every query that reaches the FAQ stage — a non-pre-flight
request with a non-empty question of trimmed length at least 5 containing
neither greeting keyword — and that matches a curated FAQ entry, the handler
returns the FAQ answer and its only collaborator call is the FAQ lookup: it
never calls the embedding or the generative model. Moreover, for every request
whatsoever, whenever the handler performs any collaborator call at all, the
first one is the FAQ lookup, so no embedding or generation call ever precedes
it. (A query containing a greeting keyword is intercepted by the earlier
greeting pre-filter and is answered without the FAQ lookup — see the
counterexample — but such a query still triggers no embedding or generation
call.) -/
theorem faq_short_circuit (env : Env) (req : Request) (q a : String) (rest : List String)
    (hm : req.httpMethod ≠ "OPTIONS") (hq : req.question = some q) (hq0 : q ≠ "")
    (hlen : ¬ (Js.jsTrim q).length < 5)
    (hgr : Js.containsSub (Js.jsToLower (Js.jsTrim q)) "ciao" = false)
    (hgr2 : Js.containsSub (Js.jsToLower (Js.jsTrim q)) "salve" = false)
    (hfaq : faqLookupResult env (Js.jsTrim q) = some (a :: rest)) :
    handler env req =
      (⟨200, Body.ans ("(FAQ) " ++ a) []⟩, [Call.faqLookup (Js.jsTrim q)]) ∧
    (∀ env2 req2, (handler env2 req2).2 = [] ∨
        ∃ q2 t, (handler env2 req2).2 = Call.faqLookup q2 :: t) := by
  constructor
  · simp [handler, hm, hq, hq0, hlen, hgr, hgr2, hfaq]
  · exact fun env2 req2 => handler_trace_head env2 req2

/-- Witness for `faq_short_circuit`: the question "come funziona" matches the
curated FAQ entry "mi spieghi come funziona il progetto?" and is answered from
it with the FAQ lookup as the only collaborator call. -/
theorem faq_short_circuit_witness :
    handler
        ⟨some [("mi spieghi come funziona il progetto?", "Bene")],
         fun _ => .error "e", fun _ _ _ => .error "e", fun _ => .error "e"⟩
        ⟨"POST", some "come funziona"⟩ =
      (⟨200, Body.ans ("(FAQ) " ++ "Bene") []⟩,
       [Call.faqLookup (Js.jsTrim "come funziona")]) ∧
    (∀ env2 req2, (handler env2 req2).2 = [] ∨
        ∃ q2 t, (handler env2 req2).2 = Call.faqLookup q2 :: t) :=
  faq_short_circuit
    ⟨some [("mi spieghi come funziona il progetto?", "Bene")],
     fun _ => .error "e", fun _ _ _ => .error "e", fun _ => .error "e"⟩
    ⟨"POST", some "come funziona"⟩ "come funziona" "Bene" []
    (by decide) rfl (by decide) (by decide) (by decide) (by decide) (by decide)

/-- Counterexample to C2 as stated: the query "ciao come stai" matches the
curated FAQ entry "dimmi ciao come stai oggi" (case-insensitive substring
match), yet the handler does not return the FAQ answer: the greeting
pre-filter intercepts the query first and returns the canned greeting, without
even performing the FAQ lookup. -/
theorem faq_short_circuit_counterexample :
    faqMatches (Js.jsTrim "ciao come stai") "dimmi ciao come stai oggi" = true ∧
    handler
        ⟨some [("dimmi ciao come stai oggi", "RISPOSTA")],
         fun _ => .error "e", fun _ _ _ => .error "e", fun _ => .error "e"⟩
        ⟨"POST", some "ciao come stai"⟩ =
      (⟨200, Body.ans greetingMsg []⟩, []) ∧
    Body.ans greetingMsg [] ≠ Body.ans ("(FAQ) " ++ "RISPOSTA") [] := by
  refine ⟨by decide, by decide, by decide⟩

/-- C10: when the FAQ lookup itself fails (the Supabase client returns an
error, so `data` is `null`), the handler silently ignores the failure: it
behaves exactly as if the FAQ table had no matching rows, proceeding to the
embedding and similarity-retrieval stage, and a FAQ collaborator failure never
produces an error response on its own. -/
theorem faq_error_ignored (env : Env) (req : Request) (q : String)
    (herr : env.faqs = none)
    (hm : req.httpMethod ≠ "OPTIONS") (hq : req.question = some q) (hq0 : q ≠ "")
    (hlen : ¬ (Js.jsTrim q).length < 5)
    (hgr : Js.containsSub (Js.jsToLower (Js.jsTrim q)) "ciao" = false)
    (hgr2 : Js.containsSub (Js.jsToLower (Js.jsTrim q)) "salve" = false) :
    (∀ r : Request, handler env r = handler { env with faqs := some [] } r) ∧
    Call.embedContent (Js.jsTrim q) ∈ (handler env req).2 := by
  constructor
  · intro r
    by_cases h1 : r.httpMethod = "OPTIONS"
    · simp [handler, h1]
    · cases hq2 : r.question with
      | none => simp [handler, h1, hq2]
      | some q2 =>
        by_cases h3 : q2 = ""
        · simp [handler, h1, hq2, h3]
        · by_cases h4 : (Js.jsTrim q2).length < 5
          · simp [handler, h1, hq2, h3, h4]
          · by_cases h5 : (Js.containsSub (Js.jsToLower (Js.jsTrim q2)) "ciao" ||
                Js.containsSub (Js.jsToLower (Js.jsTrim q2)) "salve") = true
            · simp [handler, h1, hq2, h3, h4, h5]
            · have e1 : faqLookupResult env (Js.jsTrim q2) = none := by
                simp [faqLookupResult, herr]
              have e2 : faqLookupResult { env with faqs := some [] } (Js.jsTrim q2) =
                  some [] := by simp [faqLookupResult]
              simp [handler, h1, hq2, h3, h4, h5, e1, e2]
              rfl
  · have e1 : faqLookupResult env (Js.jsTrim q) = none := by
      simp [faqLookupResult, herr]
    simp [handler, hm, hq, hq0, hlen, hgr, hgr2, e1]
    exact ragTail_trace_embed env (Js.jsTrim q)

/-- Witness for `faq_error_ignored`: a failing FAQ store on a valid query; the
handler is unchanged by replacing the failing store with an empty one, and the
embedding call is performed. -/
theorem faq_error_ignored_witness :
    handler ⟨none, fun _ => .ok [(1 : Rat)], fun _ _ _ => .ok [], fun _ => .error "e"⟩
        ⟨"POST", some "come funziona"⟩ =
      handler ({ (⟨none, fun _ => .ok [(1 : Rat)], fun _ _ _ => .ok [], fun _ => .error "e"⟩ : Env)
          with faqs := some [] }) ⟨"POST", some "come funziona"⟩ ∧
    Call.embedContent (Js.jsTrim "come funziona") ∈
      (handler ⟨none, fun _ => .ok [(1 : Rat)], fun _ _ _ => .ok [], fun _ => .error "e"⟩
        ⟨"POST", some "come funziona"⟩).2 := by
  refine ⟨?_, ?_⟩
  · exact (faq_error_ignored
      ⟨none, fun _ => .ok [(1 : Rat)], fun _ _ _ => .ok [], fun _ => .error "e"⟩
      ⟨"POST", some "come funziona"⟩ "come funziona"
      rfl (by decide) rfl (by decide) (by decide) (by decide) (by decide)).1
      ⟨"POST", some "come funziona"⟩
  · exact (faq_error_ignored
      ⟨none, fun _ => .ok [(1 : Rat)], fun _ _ _ => .ok [], fun _ => .error "e"⟩
      ⟨"POST", some "come funziona"⟩ "come funziona"
      rfl (by decide) rfl (by decide) (by decide) (by decide) (by decide)).2

end AskRag

namespace WebhookV1

/-- Counterexample to C5 as stated: for a notification with no
`x-goog-resource-uri` header (so no document id can be determined), the first
webhook variant does not return a 4xx client error: the property access on the
missing header throws, the catch-all returns a 500 server error. (No
collaborator is called, but the status class contradicts the claim.) -/
theorem missing_id_counterexample :
    handler
        ⟨fun _ => [], fun _ => .error "e", none, none, fun _ => .error "e",
         fun _ => .error "e", fun _ => .error "e"⟩
        ⟨fun _ => none⟩ [] =
      (⟨500, WBody.err "Cannot read properties of undefined"⟩, [], []) ∧
    (500 : Nat) ≠ 400 := by
  exact ⟨by decide, by decide⟩

/-- C3 (amended): the first webhook variant does purge on removal: on a
notification whose resource state is `not_found` or `trash`, when the
index-store delete succeeds, the handler deletes every chunk of the document
and answers 200; this holds for any prior store contents, in particular when no
chunks for the document existed (the delete is a no-op). The header-id/URI
variant (`WebhookV3`) has no removal branch at all — see the counterexample. -/
theorem trash_event_purges (env : Env) (event : WEvent) (store : Store) (fid : String)
    (hfid : extractFileId (event.headers "x-goog-resource-uri") = some fid)
    (hstate : event.headers "x-goog-resource-state" = some "not_found" ∨
      event.headers "x-goog-resource-state" = some "trash")
    (hdel : env.deleteRes = none) :
    handler env event store =
      (⟨200, WBody.msg removedMsg⟩, store.filter (fun r => ¬ r.file_id = fid),
       [Call.deleteByFileId fid]) ∧
    ∀ r ∈ (handler env event store).2.1, r.file_id ≠ fid := by
  have hmain : handler env event store =
      (⟨200, WBody.msg removedMsg⟩, store.filter (fun r => ¬ r.file_id = fid),
       [Call.deleteByFileId fid]) := by
    unfold handler
    rw [hfid]
    simp only [hdel]
    rw [if_pos hstate]
  refine ⟨hmain, ?_⟩
  rw [hmain]
  intro r hr
  have := List.mem_filter.mp hr
  simpa using this.2

/-- Witness for `trash_event_purges`: a trash notification for `DOC1` on an
empty store (no chunks existed); the purge still answers 200. -/
theorem trash_event_purges_witness :
    handler
        ⟨fun _ => [], fun _ => .error "e", none, none, fun _ => .error "e",
         fun _ => .error "e", fun _ => .error "e"⟩
        ⟨fun k => if k = "x-goog-resource-uri"
            then some "https://www.googleapis.com/drive/v3/files/DOC1?alt=json"
            else if k = "x-goog-resource-state" then some "trash" else none⟩ [] =
      (⟨200, WBody.msg removedMsg⟩, [], [Call.deleteByFileId "DOC1"]) ∧
    ∀ r ∈ (handler
        ⟨fun _ => [], fun _ => .error "e", none, none, fun _ => .error "e",
         fun _ => .error "e", fun _ => .error "e"⟩
        ⟨fun k => if k = "x-goog-resource-uri"
            then some "https://www.googleapis.com/drive/v3/files/DOC1?alt=json"
            else if k = "x-goog-resource-state" then some "trash" else none⟩ []).2.1,
      r.file_id ≠ "DOC1" :=
  trash_event_purges _ _ [] "DOC1" (by decide) (Or.inr (by decide)) rfl

end WebhookV1

namespace WebhookV3

/-- C5 (amended): in the header-id/URI ingestion variant, a change notification
carrying none of the resource headers (so no document id can be determined) is
rejected with a 400 client error before any collaborator is called: the store
is untouched and the call trace is empty. (In the first webhook variant the
missing header instead throws, producing a 500 server error — see the
counterexample — also before any collaborator call.) -/
theorem missing_id_client_error (env : Env) (event : WEvent) (store : Store)
    (h1 : event.headers "X-Goog-Resource-Uri" = none)
    (h2 : event.headers "x-goog-resource-uri" = none)
    (h3 : event.headers "X-Goog-Resource-Id" = none)
    (h4 : event.headers "x-goog-resource-id" = none) :
    handler env event store = (⟨400, WBody.err missingIdMsg⟩, store, []) := by
  unfold handler extractFileId
  rw [h1, h2, h3, h4]
  rfl

/-- Witness for `missing_id_client_error`: an event with no headers at all. -/
theorem missing_id_client_error_witness :
    handler
        ⟨fun _ => none, fun _ => .error "e", fun _ => .error "e", fun _ => .error "e",
         fun _ => .error "e", fun _ => .error "e", fun _ => none⟩
        ⟨fun _ => none⟩ [] =
      (⟨400, WBody.err missingIdMsg⟩, [], []) :=
  missing_id_client_error _ _ [] rfl rfl rfl rfl

/-- Counterexample to C3 as stated: the header-id/URI ingestion variant never
handles removal. On a notification for document `D` whose resource state is
`trash`, the handler ignores the state, tries to fetch the file's metadata
(which fails for the removed file), answers 500, and the stored chunk of `D`
remains in the index. -/
theorem trash_event_counterexample :
    handler
        ⟨fun _ => none, fun _ => .error "File not found", fun _ => .error "e",
         fun _ => .error "e", fun _ => .error "e", fun _ => .error "e", fun _ => none⟩
        ⟨fun k => if k = "x-goog-resource-id" then some "D"
          else if k = "x-goog-resource-state" then some "trash" else none⟩
        [⟨"D", "doc", 0, "hello", [(1 : Rat)], "t", none, []⟩] =
      (⟨500, WBody.err (serverErr "File not found")⟩,
       [⟨"D", "doc", 0, "hello", [(1 : Rat)], "t", none, []⟩], [Call.getMetadata "D"]) ∧
    (⟨"D", "doc", 0, "hello", [(1 : Rat)], "t", none, []⟩ : Row).file_id = "D" := by
  exact ⟨by decide, rfl⟩

end WebhookV3

namespace WebhookV3

/-- C4 (amended): in the per-chunk loop of the ingestion handler, a *storage*
(upsert) failure on one chunk does not prevent attempting the embedding and
storage of every remaining chunk — but the failure is only logged, never
aggregated into the operation's result: the loop still reports success no
matter how many upserts failed. An *embedding* failure, by contrast, aborts the
whole run (see the counterexample): the remaining chunks are not attempted and
a single 500 error, not an aggregate, is reported. -/
theorem upsert_failure_isolated (env : Env) (fid : String) (meta : Meta)
    (fp : Option String) (tg : List String) :
    ∀ (chunks : List String) (i : Nat) (store : Store),
      (∀ c ∈ chunks, Js.jsTrim c ≠ "" → (env.embedContent c).isOk = true) →
      (processChunks env fid meta fp tg chunks i store).1 = .ok () ∧
      ∀ c ∈ chunks, Js.jsTrim c ≠ "" →
        Call.embedContent c ∈ (processChunks env fid meta fp tg chunks i store).2.2 ∧
        ∃ r : Row, r.content = c ∧
          Call.upsertRow r ∈ (processChunks env fid meta fp tg chunks i store).2.2 := by
  intro chunks
  induction chunks with
  | nil =>
    intro i store h
    exact ⟨rfl, by simp⟩
  | cons c rest ih =>
    intro i store h
    by_cases hb : Js.jsTrim c = ""
    · simp only [processChunks, if_pos hb]
      have hx := ih (i + 1) store (fun x hx hne => h x (by simp [hx]) hne)
      refine ⟨hx.1, ?_⟩
      intro x hmem hne
      rcases List.mem_cons.mp hmem with rfl | h2
      · exact absurd hb hne
      · exact hx.2 x h2 hne
    · have hok := h c (by simp) hb
      rcases hv : env.embedContent c with e | v
      · rw [hv] at hok
        simp [Except.isOk, Except.toBool] at hok
      · simp only [processChunks, if_neg hb, hv]
        rcases hrec : processChunks env fid meta fp tg rest (i + 1)
            (match env.upsertRes ⟨fid, meta.name, i, c, v, meta.modifiedTime, fp, tg⟩ with
             | some _ => store
             | none => upsertRow store ⟨fid, meta.name, i, c, v, meta.modifiedTime, fp, tg⟩)
          with ⟨res, st, cs⟩
        have hx := ih (i + 1)
            (match env.upsertRes ⟨fid, meta.name, i, c, v, meta.modifiedTime, fp, tg⟩ with
             | some _ => store
             | none => upsertRow store ⟨fid, meta.name, i, c, v, meta.modifiedTime, fp, tg⟩)
            (fun x hx hne => h x (by simp [hx]) hne)
        rw [hrec] at hx
        refine ⟨hx.1, ?_⟩
        intro x hmem hne
        rcases List.mem_cons.mp hmem with rfl | h2
        · refine ⟨by simp, ⟨fid, meta.name, i, x, v, meta.modifiedTime, fp, tg⟩, rfl, by simp⟩
        · have h3 := hx.2 x h2 hne
          refine ⟨by simp [h3.1], ?_⟩
          rcases h3.2 with ⟨r, hr1, hr2⟩
          exact ⟨r, hr1, by simp [hr2]⟩

/-- Witness for `upsert_failure_isolated`: every upsert fails (and is merely
logged), yet both chunks are embedded and their storage attempted, and the loop
reports success. -/
theorem upsert_failure_isolated_witness :
    (processChunks
        ⟨fun _ => none, fun _ => .error "e", fun _ => .error "e", fun _ => .error "e",
         fun _ => .error "e", fun _ => .ok [(1 : Rat)], fun _ => some "db down"⟩
        "D" ⟨"D", "doc", "text/plain", "t0", []⟩ none [] ["aa", "bb"] 0 []).1 = .ok () ∧
    (Call.embedContent "aa" ∈
        (processChunks
          ⟨fun _ => none, fun _ => .error "e", fun _ => .error "e", fun _ => .error "e",
           fun _ => .error "e", fun _ => .ok [(1 : Rat)], fun _ => some "db down"⟩
          "D" ⟨"D", "doc", "text/plain", "t0", []⟩ none [] ["aa", "bb"] 0 []).2.2 ∧
      ∃ r : Row, r.content = "aa" ∧
        Call.upsertRow r ∈
          (processChunks
            ⟨fun _ => none, fun _ => .error "e", fun _ => .error "e", fun _ => .error "e",
             fun _ => .error "e", fun _ => .ok [(1 : Rat)], fun _ => some "db down"⟩
            "D" ⟨"D", "doc", "text/plain", "t0", []⟩ none [] ["aa", "bb"] 0 []).2.2) :=
  ⟨(upsert_failure_isolated _ "D" ⟨"D", "doc", "text/plain", "t0", []⟩ none []
      ["aa", "bb"] 0 [] (by decide)).1,
   (upsert_failure_isolated _ "D" ⟨"D", "doc", "text/plain", "t0", []⟩ none []
      ["aa", "bb"] 0 [] (by decide)).2 "aa" (by decide) (by decide)⟩

/-- Counterexample to C4 as stated: when the embedding of the first chunk
fails, the loop aborts at once with that single error: the second chunk is
never embedded nor stored — the remaining chunks are not attempted and no
aggregation of per-chunk failures takes place. -/
theorem embed_failure_aborts_counterexample :
    processChunks
        ⟨fun _ => none, fun _ => .error "e", fun _ => .error "e", fun _ => .error "e",
         fun _ => .error "e",
         fun c => if c = "aa" then .error "quota" else .ok [(1 : Rat)],
         fun _ => none⟩
        "D" ⟨"D", "doc", "text/plain", "t0", []⟩ none [] ["aa", "bb"] 0 [] =
      (.error "quota", [], [Call.embedContent "aa"]) ∧
    Call.embedContent "bb" ∉ [Call.embedContent "aa"] := by
  exact ⟨rfl, by decide⟩

end WebhookV3

namespace WebhookV1

theorem mem_upsertRow_self (store : Store) (r : Row) : r ∈ upsertRow store r := by
  unfold upsertRow
  by_cases h : store.any (fun s => s.id = r.id)
  · rw [if_pos h]
    rcases List.any_eq_true.mp h with ⟨s, hs, hid⟩
    have hfx : (if s.id = r.id then r else s) = r := if_pos (of_decide_eq_true hid)
    exact List.mem_map.mpr ⟨s, hs, hfx⟩
  · rw [if_neg h]
    exact List.mem_append_right _ (by simp)

theorem mem_upsertRow_of_mem (store : Store) (r s : Row) (hs : s ∈ store) :
    s ∈ upsertRow store r ∨ s.id = r.id := by
  unfold upsertRow
  by_cases h : store.any (fun x => x.id = r.id)
  · by_cases hid : s.id = r.id
    · exact Or.inr hid
    · left
      rw [if_pos h]
      have hfx : (if s.id = r.id then r else s) = s := if_neg hid
      exact List.mem_map.mpr ⟨s, hs, hfx⟩
  · left
    rw [if_neg h]
    exact List.mem_append_left _ hs

theorem mem_of_mem_upsertRow (store : Store) (r s : Row)
    (hs : s ∈ upsertRow store r) : s ∈ store ∨ s = r := by
  unfold upsertRow at hs
  by_cases h : store.any (fun x => x.id = r.id)
  · rw [if_pos h] at hs
    rcases List.mem_map.mp hs with ⟨x, hx, hfx⟩
    by_cases hid : x.id = r.id
    · rw [if_pos hid] at hfx
      exact Or.inr hfx.symm
    · rw [if_neg hid] at hfx
      exact Or.inl (hfx ▸ hx)
  · rw [if_neg h] at hs
    rcases List.mem_append.mp hs with h1 | h1
    · exact Or.inl h1
    · exact Or.inr (by simpa using h1)

theorem mem_of_mem_upsertRows :
    ∀ (rows : List Row) (store : Store) (s : Row),
      s ∈ upsertRows store rows → s ∈ store ∨ s ∈ rows := by
  intro rows
  induction rows with
  | nil => intro store s h; exact Or.inl h
  | cons r rest ih =>
    intro store s h
    simp only [upsertRows, List.foldl_cons] at h
    rcases ih (upsertRow store r) s h with h1 | h1
    · rcases mem_of_mem_upsertRow store r s h1 with h2 | h2
      · exact Or.inl h2
      · exact Or.inr (h2 ▸ List.mem_cons_self r rest)
    · exact Or.inr (List.mem_cons_of_mem _ h1)

theorem id_preserved_upsertRows (fid : String) :
    ∀ (rows : List Row), (∀ r ∈ rows, r.file_id = fid) →
      ∀ (store : Store) (s : Row), s ∈ store → s.file_id = fid →
        ∃ t ∈ upsertRows store rows, t.id = s.id ∧ t.file_id = fid := by
  intro rows
  induction rows with
  | nil =>
    intro _ store s hs hf
    exact ⟨s, hs, rfl, hf⟩
  | cons r rest ih =>
    intro hrows store s hs hf
    simp only [upsertRows, List.foldl_cons]
    rcases mem_upsertRow_of_mem store r s hs with h1 | h1
    · exact ih (fun x hx => hrows x (List.mem_cons_of_mem _ hx)) (upsertRow store r) s h1 hf
    · rcases ih (fun x hx => hrows x (List.mem_cons_of_mem _ hx)) (upsertRow store r) r
        (mem_upsertRow_self store r) (hrows r (List.mem_cons_self _ _)) with ⟨t, ht, hid, htf⟩
      exact ⟨t, ht, by rw [hid, ← h1], htf⟩

theorem new_row_present (fid : String) :
    ∀ (rows : List Row), (∀ r ∈ rows, r.file_id = fid) →
      ∀ (store : Store) (r : Row), r ∈ rows →
        ∃ t ∈ upsertRows store rows, t.id = r.id ∧ t.file_id = fid := by
  intro rows
  induction rows with
  | nil => intro _ store r h; simp at h
  | cons r0 rest ih =>
    intro hrows store r hr
    simp only [upsertRows, List.foldl_cons]
    rcases List.mem_cons.mp hr with rfl | h1
    · exact id_preserved_upsertRows fid rest
        (fun x hx => hrows x (List.mem_cons_of_mem _ hx)) (upsertRow store r)
        r (mem_upsertRow_self store r) (hrows r (List.mem_cons_self _ _))
    · exact ih (fun x hx => hrows x (List.mem_cons_of_mem _ hx)) (upsertRow store r0) r h1

theorem embedChunks_ok (env : Env) (fid name : String) :
    ∀ (chunks : List String) (i : Nat) (rows : List Row) (calls : List Call),
      embedChunks env fid name chunks i = (.ok rows, calls) →
      rows.map (fun r => r.id) =
        (List.range chunks.length).map (fun j => mkId fid (i + j)) ∧
      ∀ r ∈ rows, r.file_id = fid := by
  intro chunks
  induction chunks with
  | nil =>
    intro i rows calls h
    simp only [embedChunks, Prod.mk.injEq] at h
    obtain ⟨h1, _⟩ := h
    obtain rfl : ([] : List Row) = rows := by
      cases h1
      rfl
    exact ⟨by simp, by simp⟩
  | cons c rest ih =>
    intro i rows calls h
    simp only [embedChunks] at h
    rcases hv : env.embed c with e | v <;> rw [hv] at h
    · simp at h
    · rcases hrec : embedChunks env fid name rest (i + 1) with ⟨res, cs⟩
      rw [hrec] at h
      cases res with
      | error e => simp at h
      | ok rows' =>
        simp only [Prod.mk.injEq] at h
        obtain ⟨h1, _⟩ := h
        obtain rfl : (⟨mkId fid i, fid, c, v, name⟩ : Row) :: rows' = rows := by
          cases h1
          rfl
        obtain ⟨ihmap, ihfid⟩ := ih (i + 1) rows' cs hrec
        constructor
        · simp only [List.length_cons, List.range_succ_eq_map, List.map_cons, List.map_map]
          rw [List.cons_eq_cons]
          refine ⟨by simp, ?_⟩
          rw [ihmap]
          apply List.map_congr_left
          intro j hj
          show mkId fid (i + 1 + j) = mkId fid (i + (j + 1))
          have e : i + 1 + j = i + (j + 1) := by omega
          rw [e]
        · intro r hr
          rcases List.mem_cons.mp hr with rfl | hr2
          · rfl
          · exact ihfid r hr2

end WebhookV1

namespace WebhookV1

/-- C1 (amended): the delete-then-upsert variant does maintain the chunk-set
invariant: after any successful run of `processDocument` for document `fid`,
the rows stored for `fid` carry exactly the synthesized chunk ids
`fid-0 … fid-(count-1)` for the current content — every stored row for `fid`
has an id of that form with index below the current chunk count (so no row of a
previous, longer version survives), and every index below the count is present.
The header-id/URI variant upserts per `(file_id, chunk_index)` without ever
deleting stale rows, so a shrinking document leaves stale indices behind — see
the counterexample. -/
theorem processDocument_replace_invariant (env : Env) (fid content name : String)
    (store store2 : Store) (calls : List Call)
    (hrun : processDocument env fid content name store = (.ok (), store2, calls)) :
    (∀ r ∈ store2, r.file_id = fid →
        ∃ j, j < (env.splitText content).length ∧ r.id = mkId fid j) ∧
    (∀ j, j < (env.splitText content).length →
        ∃ r ∈ store2, r.file_id = fid ∧ r.id = mkId fid j) := by
  unfold processDocument at hrun
  rcases hemb : embedChunks env fid name (env.splitText content) 0 with ⟨res, cs⟩
  rw [hemb] at hrun
  cases res with
  | error e => simp at hrun
  | ok rows =>
    cases hdel : env.deleteRes with
    | some e => rw [hdel] at hrun; simp at hrun
    | none =>
      rw [hdel] at hrun
      cases hups : env.upsertRes with
      | some e => rw [hups] at hrun; simp at hrun
      | none =>
        rw [hups] at hrun
        simp only [Prod.mk.injEq] at hrun
        obtain ⟨-, hst, -⟩ := hrun
        obtain ⟨hmap, hfid⟩ := embedChunks_ok env fid name (env.splitText content) 0 rows cs hemb
        subst hst
        constructor
        · intro r hr hrf
          rcases mem_of_mem_upsertRows rows _ r hr with h1 | h1
          · exfalso
            have := List.mem_filter.mp h1
            rw [decide_eq_true_eq] at this
            exact this.2 hrf
          · have : r.id ∈ rows.map (fun r => r.id) := List.mem_map_of_mem _ h1
            rw [hmap] at this
            rcases List.mem_map.mp this with ⟨j, hj, hje⟩
            exact ⟨j, List.mem_range.mp hj, by rw [← hje]; congr 1; omega⟩
        · intro j hj
          have : mkId fid (0 + j) ∈ rows.map (fun r => r.id) := by
            rw [hmap]
            exact List.mem_map_of_mem _ (List.mem_range.mpr hj)
          rcases List.mem_map.mp this with ⟨r, hrm, hre⟩
          rcases new_row_present fid rows hfid
            (store.filter (fun r => ¬ r.file_id = fid)) r hrm with ⟨t, ht, htid, htf⟩
          refine ⟨t, ht, htf, ?_⟩
          rw [htid, hre]
          congr 1
          omega

/-- Witness for `processDocument_replace_invariant`: one successful run on an
empty store with a single-chunk split. -/
theorem processDocument_replace_invariant_witness :
    (∀ r ∈ ([⟨mkId "X" 0, "X", "c1", [(1 : Rat)], "f"⟩] : Store), r.file_id = "X" →
        ∃ j, j < 1 ∧ r.id = mkId "X" j) ∧
    (∀ j, j < 1 → ∃ r ∈ ([⟨mkId "X" 0, "X", "c1", [(1 : Rat)], "f"⟩] : Store),
        r.file_id = "X" ∧ r.id = mkId "X" j) :=
  processDocument_replace_invariant
    ⟨fun _ => ["c1"], fun _ => .ok [(1 : Rat)], none, none,
     fun _ => .error "e", fun _ => .error "e", fun _ => .error "e"⟩
    "X" "body" "f" [] [⟨mkId "X" 0, "X", "c1", [(1 : Rat)], "f"⟩]
    [Call.embedContent "c1", Call.deleteByFileId "X",
     Call.upsertRows [⟨mkId "X" 0, "X", "c1", [(1 : Rat)], "f"⟩]]
    rfl

end WebhookV1

namespace WebhookV3

set_option maxRecDepth 10000 in
/-- Counterexample to C1 as stated: two successive successful runs of the
header-id/URI ingestion handler for document `D`. The first version of the
content (`bigText1`) produces two chunks, so rows with chunk indices 0 and 1
are stored; the second version (`bigText2`) produces a single chunk, yet after
the second successful run the stale row with chunk index 1 — an index from the
previous, longer version, not below the current count 1 — is still stored for
`D`. -/
theorem stale_chunk_counterexample :
    (handler shrinkEnv1 idEventD []).1.statusCode = 200 ∧
    (handler shrinkEnv2 idEventD (handler shrinkEnv1 idEventD []).2.1).1.statusCode = 200 ∧
    (Chunker.createChunks bigText2 1000).length = 1 ∧
    ∃ r ∈ (handler shrinkEnv2 idEventD (handler shrinkEnv1 idEventD []).2.1).2.1,
      r.file_id = "D" ∧ r.chunk_index = 1 := by
  refine ⟨by decide, by decide, by decide, ?_⟩
  decide

end WebhookV3
